import Mathlib

/-!
Verification development for the agent-memory subsystem
(`packages/agents/src/memory/{events,session,processors}.ts`).

The TypeScript data model and operations are shallowly embedded:
classes become structures, methods become pure functions (the mutating
`this`-returning methods become functions returning the updated value),
JavaScript numbers used for timestamps and token counts become `Int`/`Nat`
(all arithmetic performed on them in the source is exact in IEEE doubles for
realistic magnitudes), and the floating-point divisions by 4 in
`truncateToFit` become exact rational arithmetic (`ℚ`), which agrees with
the doubles computed by the source because string lengths are integers and
division by 4 is exact on dyadic rationals.  `Date.now()` and the random
session/event id generation are modelled as explicit parameters.
`JSON.stringify` of the small auxiliary objects (agent identity, artifact
references) is modelled structurally below; control-character escaping is
omitted, which only shifts opaque character counts and is not depended on
by any claim.
-/

/-- The nine event discriminants of `EventAction` in `events.ts`. -/
inductive EventAction where
  | userMessage
  | agentMessage
  | toolCall
  | toolResult
  | error
  | controlSignal
  | compaction
  | agentTransfer
  | systemInstruction
deriving DecidableEq, Repr

/-- Model of `ToolResultEvent.result : string | object`; an object is represented by
its JSON serialization text. -/
inductive ToolResultValue where
  | strVal (s : String)
  | objVal (json : String)
deriving DecidableEq, Repr

/-- The tagged union `Event` of `events.ts`.  Every variant carries the
shared `id` and `timestamp`; variant payloads follow the source interfaces
(fields not read by any code under verification, such as free-form
`metadata` and `customParams`, are omitted; `ToolCallEvent.arguments` is
carried as its JSON serialization since the source only ever
`JSON.stringify`s it). -/
inductive Event where
  | userMessage (id : String) (timestamp : Int) (content : String)
  | agentMessage (id : String) (timestamp : Int) (content : String) (agentId : String)
      (modelUsed : Option String) (tokensUsed : Option Int) (gatewayLogId : Option String)
  | toolCall (id : String) (timestamp : Int) (toolName : String)
      (argumentsJson : String) (toolCallId : String)
  | toolResult (id : String) (timestamp : Int) (toolCallId : String) (toolName : String)
      (result : ToolResultValue) (isSuccess : Bool)
  | errorEvent (id : String) (timestamp : Int) (errorType : String) (errorMessage : String)
      (recoverable : Bool)
  | controlSignal (id : String) (timestamp : Int) (signalType : String)
  | compaction (id : String) (timestamp : Int) (summary : String)
      (compactedEventIds : List String) (compactionStrategy : String)
  | agentTransfer (id : String) (timestamp : Int) (fromAgent : String) (toAgent : String)
      (transferReason : String)
  | systemInstruction (id : String) (timestamp : Int) (instruction : String) (isStatic : Bool)
deriving DecidableEq, Repr

/-- The shared `id` field. -/
def Event.id : Event → String
  | .userMessage i _ _ => i
  | .agentMessage i _ _ _ _ _ _ => i
  | .toolCall i _ _ _ _ => i
  | .toolResult i _ _ _ _ _ => i
  | .errorEvent i _ _ _ _ => i
  | .controlSignal i _ _ => i
  | .compaction i _ _ _ _ => i
  | .agentTransfer i _ _ _ _ => i
  | .systemInstruction i _ _ _ => i

/-- The shared `timestamp` field. -/
def Event.timestamp : Event → Int
  | .userMessage _ t _ => t
  | .agentMessage _ t _ _ _ _ _ => t
  | .toolCall _ t _ _ _ => t
  | .toolResult _ t _ _ _ _ => t
  | .errorEvent _ t _ _ _ => t
  | .controlSignal _ t _ => t
  | .compaction _ t _ _ _ => t
  | .agentTransfer _ t _ _ _ => t
  | .systemInstruction _ t _ _ => t

/-- The `action` discriminant of an event. -/
def Event.action : Event → EventAction
  | .userMessage _ _ _ => .userMessage
  | .agentMessage _ _ _ _ _ _ _ => .agentMessage
  | .toolCall _ _ _ _ _ => .toolCall
  | .toolResult _ _ _ _ _ _ => .toolResult
  | .errorEvent _ _ _ _ _ => .error
  | .controlSignal _ _ _ => .controlSignal
  | .compaction _ _ _ _ _ => .compaction
  | .agentTransfer _ _ _ _ _ => .agentTransfer
  | .systemInstruction _ _ _ _ => .systemInstruction

/-- Model of `AgentMessageEvent.tokensUsed` (absent on every other variant). -/
def Event.tokensUsedOpt : Event → Option Int
  | .agentMessage _ _ _ _ _ t _ => t
  | _ => none

/-- Model of `CompactionEvent.summary` (empty on every other variant). -/
def Event.summaryStr : Event → String
  | .compaction _ _ s _ _ => s
  | _ => ""

/-- Model of `CompactionEvent.compactedEventIds` (empty on every other variant). -/
def Event.compactedIdsOf : Event → List String
  | .compaction _ _ _ ids _ => ids
  | _ => []

/-- Model of `SessionMetadata` of `session.ts`. -/
structure SessionMetadata where
  sessionId : String
  createdAt : Int
  updatedAt : Int
  agentId : String
deriving DecidableEq, Repr

/-- Model of `SessionStatistics` of `session.ts`.  The running average is a JS
number; it is modelled as an exact rational. -/
structure SessionStatistics where
  totalEvents : Nat
  totalUserMessages : Nat
  totalAgentMessages : Nat
  totalToolCalls : Nat
  totalErrors : Nat
  totalCompactions : Nat
  averageResponseTimeMs : ℚ
  totalTokensUsed : Int
deriving DecidableEq, Repr

/-- Model of `CompactionConfig` of `session.ts` (the strategy literal union is
carried as a string). -/
structure CompactionConfig where
  enabled : Bool
  triggerThreshold : Nat
  windowSize : Nat
  overlapSize : Nat
  strategy : String
deriving DecidableEq, Repr

/-- Model of `ConversationTurn` of `session.ts`: `user` holds the user-message
event, `agent` the optional agent-message event, `tools` the tool
call/result events in encounter order. -/
structure ConversationTurn where
  user : Event
  agent : Option Event
  tools : List Event
deriving DecidableEq, Repr

/-- The `Session` class state: metadata, the ordered event log, running
statistics and the compaction configuration. -/
structure Session where
  metadata : SessionMetadata
  events : List Event
  statistics : SessionStatistics
  compactionConfig : CompactionConfig
deriving DecidableEq, Repr

/-- The `Session` constructor.  `Date.now()` and the random part of the
generated session id are supplied as the `now` and `sessionId`
parameters. -/
def Session.create (agentId : String) (sessionId : String) (now : Int) : Session where
  metadata := { sessionId := sessionId, createdAt := now, updatedAt := now, agentId := agentId }
  events := []
  statistics :=
    { totalEvents := 0, totalUserMessages := 0, totalAgentMessages := 0, totalToolCalls := 0
      totalErrors := 0, totalCompactions := 0, averageResponseTimeMs := 0, totalTokensUsed := 0 }
  compactionConfig :=
    { enabled := true, triggerThreshold := 50, windowSize := 10, overlapSize := 2
      strategy := "sliding_window" }

/-- The statistics update performed by the `switch` in `Session.addEvent`:
`totalEvents` always increments, exactly one per-type bucket increments,
and an agent message adds `tokensUsed` only when it is truthy (present and
nonzero). -/
def updateStatistics (st : SessionStatistics) (e : Event) : SessionStatistics :=
  let st0 := { st with totalEvents := st.totalEvents + 1 }
  match e.action with
  | .userMessage => { st0 with totalUserMessages := st0.totalUserMessages + 1 }
  | .agentMessage =>
    let st1 := { st0 with totalAgentMessages := st0.totalAgentMessages + 1 }
    match e.tokensUsedOpt with
    | some t => if t ≠ 0 then { st1 with totalTokensUsed := st1.totalTokensUsed + t } else st1
    | none => st1
  | .toolCall => { st0 with totalToolCalls := st0.totalToolCalls + 1 }
  | .error => { st0 with totalErrors := st0.totalErrors + 1 }
  | .compaction => { st0 with totalCompactions := st0.totalCompactions + 1 }
  | _ => st0

/-- Model of `Session.addEvent`: push the event, set `updatedAt` to the current
time, update the statistics. -/
def Session.addEvent (s : Session) (e : Event) (now : Int) : Session :=
  { s with
      events := s.events ++ [e]
      metadata := { s.metadata with updatedAt := now }
      statistics := updateStatistics s.statistics e }

/-- A sequence of `addEvent` calls (each with its own `Date.now()`
value). -/
def Session.appendEvents (s : Session) (l : List (Event × Int)) : Session :=
  l.foldl (fun acc p => acc.addEvent p.1 p.2) s

/-- Model of `Session.needsCompaction`. -/
def Session.needsCompaction (s : Session) : Bool :=
  if !s.compactionConfig.enabled then false
  else
    let uncompactedEvents := s.events.filter (fun e => decide (e.action ≠ EventAction.compaction))
    decide (uncompactedEvents.length ≥ s.compactionConfig.triggerThreshold)

/-- JavaScript `Array.prototype.slice(start)` (one-argument form): a
negative start counts from the end clamped at 0, a non-negative start is
clamped at the length.  Note `-0` is non-negative. -/
def jsSlice {α : Type} (l : List α) (start : Int) : List α :=
  let len : Int := l.length
  let k : Int := if start < 0 then max (len + start) 0 else min start len
  l.drop k.toNat

/-- Model of `Session.getLastNEvents(n)` = `events.slice(-n)`. -/
def Session.getLastNEvents (s : Session) (n : Nat) : List Event :=
  jsSlice s.events (-(n : Int))

/-- The left-to-right scan of `Session.getConversationTurns`, with the
`currentTurn` accumulator made explicit. -/
def turnsAux : List Event → Option ConversationTurn → List ConversationTurn
  | [], none => []
  | [], some t => [t]
  | e :: rest, cur =>
    if e.action = EventAction.userMessage then
      match cur with
      | some t => t :: turnsAux rest (some { user := e, agent := none, tools := [] })
      | none => turnsAux rest (some { user := e, agent := none, tools := [] })
    else
      match cur with
      | none => turnsAux rest none
      | some t =>
        if e.action = EventAction.agentMessage then
          turnsAux rest (some { t with agent := some e })
        else if e.action = EventAction.toolCall ∨ e.action = EventAction.toolResult then
          turnsAux rest (some { t with tools := t.tools ++ [e] })
        else
          turnsAux rest (some t)

/-- Model of `Session.getConversationTurns`. -/
def Session.getConversationTurns (s : Session) : List ConversationTurn :=
  turnsAux s.events none

/-- The structural snapshot `{metadata, events, statistics,
compactionConfig}` produced by `Session.serialize`.  `JSON.stringify`
followed by `JSON.parse` is lossless on this plain record (its leaves are
strings, exact numbers, booleans and arrays thereof), so the JSON text is
modelled by the snapshot itself. -/
structure SerializedSession where
  metadata : SessionMetadata
  events : List Event
  statistics : SessionStatistics
  compactionConfig : CompactionConfig
deriving DecidableEq, Repr

/-- Model of `Session.serialize`. -/
def Session.serialize (s : Session) : SerializedSession :=
  { metadata := s.metadata, events := s.events, statistics := s.statistics
    compactionConfig := s.compactionConfig }

/-- Model of `Session.deserialize`: construct a fresh session for the parsed
`agentId`, then `Object.assign` every metadata/statistics/config field from
the snapshot and push all parsed events.  The clock and
generated id of the fresh constructor are parameters (all the fields they
set are overwritten by the assigns). -/
def Session.deserialize (d : SerializedSession) (freshSessionId : String) (now : Int) : Session :=
  let session := Session.create d.metadata.agentId freshSessionId now
  { session with
      metadata := d.metadata
      statistics := d.statistics
      compactionConfig := d.compactionConfig
      events := session.events ++ d.events }

/-- Model of `ContentRole` of `working-context.ts`. -/
inductive ContentRole where
  | system
  | user
  | assistant
  | tool
deriving DecidableEq, Repr

/-- The role string used by the formatting layer. -/
def ContentRole.toStr : ContentRole → String
  | .system => "system"
  | .user => "user"
  | .assistant => "assistant"
  | .tool => "tool"

/-- The keys the contents projection writes into the free-form `Content` field
`metadata` record. -/
structure ContentMetadata where
  eventId : Option String := none
  timestamp : Option Int := none
  modelUsed : Option String := none
  gatewayLogId : Option String := none
  toolCallId : Option String := none
  toolName : Option String := none
  isSuccess : Option Bool := none
  compactedEventIds : Option (List String) := none
deriving DecidableEq, Repr

/-- Model of `Content` of `working-context.ts`. -/
structure Content where
  role : ContentRole
  content : String
  name : Option String := none
  tool_call_id : Option String := none
  metadata : Option ContentMetadata := none
deriving DecidableEq, Repr

/-- Model of `AgentIdentity` of `working-context.ts`. -/
structure AgentIdentity where
  name : String
  role : String
  capabilities : List String
deriving DecidableEq, Repr

/-- Model of `ArtifactReference` of `working-context.ts`. -/
structure ArtifactReference where
  id : String
  name : String
  type : String
  summary : String
deriving DecidableEq, Repr

/-- Model of `WorkingContextMetadata` of `working-context.ts`. -/
structure WorkingContextMetadata where
  sessionId : String
  totalEvents : Nat
  compactedEvents : Nat
  windowSize : Nat
  createdAt : Int
deriving DecidableEq, Repr

/-- Model of `ContextWindowConfig` of `working-context.ts`. -/
structure ContextWindowConfig where
  maxTokens : Nat
  reservedForResponse : Nat
  reservedForTools : Nat
  availableForHistory : Nat
deriving DecidableEq, Repr

/-- The `WorkingContext` builder state. -/
structure WorkingContext where
  systemInstructions : List String
  agentIdentity : Option AgentIdentity
  contents : List Content
  memoryResults : List String
  artifactReferences : List ArtifactReference
  metadata : WorkingContextMetadata
deriving DecidableEq, Repr

/-- The `WorkingContext` constructor (clock supplied as `now`). -/
def WorkingContext.mk0 (sessionId : String) (now : Int) : WorkingContext where
  systemInstructions := []
  agentIdentity := none
  contents := []
  memoryResults := []
  artifactReferences := []
  metadata :=
    { sessionId := sessionId, totalEvents := 0, compactedEvents := 0, windowSize := 0
      createdAt := now }

/-- Model of `WorkingContext.addContent`. -/
def WorkingContext.addContent (c : WorkingContext) (x : Content) : WorkingContext :=
  { c with contents := c.contents ++ [x] }

/-- Model of `JSON.stringify` escaping for string values (backslash and quote; the
control-character escapes are omitted, see the header comment). -/
def jsonQuote (s : String) : String :=
  "\"" ++ ((s.replace "\\" "\\\\").replace "\"" "\\\"") ++ "\""

/-- Model of `JSON.stringify(agentIdentity)`. -/
def jsonStringifyIdentity (a : AgentIdentity) : String :=
  "\x7b\"name\":" ++ jsonQuote a.name ++ ",\"role\":" ++ jsonQuote a.role
    ++ ",\"capabilities\":[" ++ String.intercalate "," (a.capabilities.map jsonQuote) ++ "]\x7d"

/-- Model of `JSON.stringify(artifactReferences)`. -/
def jsonStringifyArtifacts (l : List ArtifactReference) : String :=
  "[" ++ String.intercalate ","
    (l.map fun a =>
      "\x7b\"id\":" ++ jsonQuote a.id ++ ",\"name\":" ++ jsonQuote a.name
        ++ ",\"type\":" ++ jsonQuote a.type ++ ",\"summary\":" ++ jsonQuote a.summary ++ "\x7d")
    ++ "]"

/-- The total character count summed by `estimateTokenCount`. -/
def WorkingContext.totalChars (c : WorkingContext) : Nat :=
  (String.intercalate "\n" c.systemInstructions).length
    + (match c.agentIdentity with
       | some a => (jsonStringifyIdentity a).length
       | none => 0)
    + (c.contents.map (fun x => x.content.length)).sum
    + (if c.memoryResults.length > 0 then (String.intercalate "\n" c.memoryResults).length else 0)
    + (if c.artifactReferences.length > 0 then (jsonStringifyArtifacts c.artifactReferences).length
       else 0)

/-- Model of `WorkingContext.estimateTokenCount` = `Math.ceil(totalChars / 4)`. -/
def WorkingContext.estimateTokenCount (c : WorkingContext) : Nat :=
  (c.totalChars + 3) / 4

/-- Model of `WorkingContext.fitsWithinLimit`. -/
def WorkingContext.fitsWithinLimit (c : WorkingContext) (config : ContextWindowConfig) : Bool :=
  decide (c.estimateTokenCount ≤ config.availableForHistory)

/-- The per-content token cost `Math.ceil(content.content.length / 4)` used
by the truncation walk. -/
def contentTokenCost (x : Content) : Nat :=
  (x.content.length + 3) / 4

/-- Model of `systemTokens` in `truncateToFit`: the source computes it with plain
floating-point division (no ceiling), which is exact; modelled in ℚ. -/
def WorkingContext.systemTokensQ (c : WorkingContext) : ℚ :=
  ((String.intercalate "\n" c.systemInstructions).length : ℚ) / 4
    + (match c.agentIdentity with
       | some a => ((jsonStringifyIdentity a).length : ℚ) / 4
       | none => 0)

/-- Model of `availableForContents` in `truncateToFit`. -/
def WorkingContext.availableForContentsQ (c : WorkingContext) (config : ContextWindowConfig) : ℚ :=
  (config.availableForHistory : ℚ) - c.systemTokensQ

/-- The backward walk of `truncateToFit`, expressed on the reversed
contents list: keep an element while the running total of per-content costs
stays within the budget, stop at the first element that would exceed it. -/
def takeWhileBudget (budget : ℚ) : List Content → ℚ → List Content
  | [], _acc => []
  | x :: xs, acc =>
    if (acc + (contentTokenCost x : ℚ)) ≤ budget then
      x :: takeWhileBudget budget xs (acc + (contentTokenCost x : ℚ))
    else []

/-- Model of `WorkingContext.truncateToFit`. -/
def WorkingContext.truncateToFit (c : WorkingContext) (config : ContextWindowConfig) :
    WorkingContext :=
  if c.estimateTokenCount ≤ config.availableForHistory then c
  else
    let contentsToKeep :=
      (takeWhileBudget (c.availableForContentsQ config) c.contents.reverse 0).reverse
    { c with
        contents := contentsToKeep
        metadata := { c.metadata with windowSize := contentsToKeep.length } }

/-- One chat-style message of the Workers AI `chat_completions`/`native`
shape. -/
structure WorkersAIMessage where
  role : String
  content : String
  name : Option String := none
  tool_call_id : Option String := none
deriving DecidableEq, Repr

/-- One structured input entry of the Workers AI `responses` shape. -/
structure WorkersAIInput where
  type : Option String := none
  call_id : Option String := none
  output : Option String := none
  role : Option String := none
  content : Option String := none
  name : Option String := none
deriving DecidableEq, Repr

/-- The fixed reasoning annotation of the `responses` shape. -/
structure ReasoningAnnotation where
  effort : String
  summary : String
deriving DecidableEq, Repr

/-- The `WorkersAIFormat` union. -/
inductive WorkersAIFormat where
  | responsesFormat (instructions : String) (input : List WorkersAIInput)
      (reasoning : ReasoningAnnotation)
  | messagesFormat (messages : List WorkersAIMessage)
deriving DecidableEq, Repr

/-- The JS `x && {field: x}` spread idiom: the field is included only when
the string is truthy (present and non-empty). -/
def truthyOpt : Option String → Option String
  | some "" => none
  | o => o

/-- The synthesized leading system text of `_toWorkersAIFormat`
(instructions, identity block, memory block, artifacts block, each appended
only when non-empty). -/
def WorkingContext.systemContent (c : WorkingContext) : String :=
  let s0 := String.intercalate "\n\n" c.systemInstructions
  let s1 :=
    match c.agentIdentity with
    | some a =>
      s0 ++ "\n\nAgent Identity:\nName: " ++ a.name ++ "\nRole: " ++ a.role
        ++ "\nCapabilities: " ++ String.intercalate ", " a.capabilities
    | none => s0
  let s2 :=
    if c.memoryResults.length > 0 then
      s1 ++ "\n\nRelevant Memory:\n" ++ String.intercalate "\n\n" c.memoryResults
    else s1
  if c.artifactReferences.length > 0 then
    s2 ++ "\n\nAvailable Artifacts:\n"
      ++ String.intercalate "\n"
        (c.artifactReferences.map fun a =>
          "- " ++ a.name ++ " (" ++ a.type ++ "): " ++ a.summary)
  else s2

/-- The model identifiers configured to use the assistant role in place of
a dedicated tool role (`MODELS_USING_ASSISTANT_ROLE`). -/
def modelsUsingAssistantRole : List String :=
  ["@cf/mistralai/mistral-small-3.1-24b-instruct"]

/-- Model of `WorkingContext._toWorkersAIFormat`. -/
def WorkingContext.toWorkersAIFormat (c : WorkingContext) (format : String)
    (model : Option String) : WorkersAIFormat :=
  let usesAssistantRole :=
    match model with
    | some m => decide (m ∈ modelsUsingAssistantRole)
    | none => false
  let systemContent := c.systemContent
  if format = "responses" then
    let input := c.contents.map fun content =>
      if content.role = ContentRole.tool then
        { type := some "function_call_output", call_id := content.tool_call_id
          output := some content.content }
      else
        ({ role := some content.role.toStr, content := some content.content
           name := truthyOpt content.name } : WorkersAIInput)
    .responsesFormat systemContent input { effort := "medium", summary := "concise" }
  else
    let historyMessages := c.contents.map fun content =>
      if content.role = ContentRole.tool then
        if usesAssistantRole then
          ({ role := "assistant", content := content.content } : WorkersAIMessage)
        else
          { role := "tool", tool_call_id := truthyOpt content.tool_call_id
            content := content.content }
      else
        { role := content.role.toStr, content := content.content
          name := truthyOpt content.name, tool_call_id := truthyOpt content.tool_call_id }
    .messagesFormat ({ role := "system", content := systemContent } :: historyMessages)

/-- Model of `WorkingContext.toModelFormat`: dispatch on `modelType` (any value
other than `"workers-ai"` throws), with `options?.format || "chat_completions"`
(JS `||`: an absent or empty format falls back to the default). -/
def WorkingContext.toModelFormat (c : WorkingContext) (modelType : String)
    (format : Option String) (model : Option String) : Except String WorkersAIFormat :=
  if modelType = "workers-ai" then
    let resolvedFormat :=
      match format with
      | some f => if f = "" then "chat_completions" else f
      | none => "chat_completions"
    .ok (c.toWorkersAIFormat resolvedFormat model)
  else
    .error ("Unsupported model type: " ++ modelType)

/-- Model of `ContentsProcessorConfig` of `processors.ts`. -/
structure ContentsProcessorConfig where
  windowSize : Option Nat := none
  includeToolCalls : Option Bool := none
  filterActions : Option (List EventAction) := none
deriving DecidableEq, Repr

/-- The per-event arm of the `switch` in `contentsRequestProcessor`: the
content item(s) appended for one event (empty for tool events when
`includeToolCalls` is off and for the unhandled action types). -/
def eventToContents (includeToolCalls : Bool) (e : Event) : List Content :=
  match e with
  | .userMessage i ts content =>
    [{ role := .user, content := content
       metadata := some { eventId := some i, timestamp := some ts } }]
  | .agentMessage i ts content _agentId modelUsed _tokensUsed gatewayLogId =>
    [{ role := .assistant, content := content
       metadata := some { eventId := some i, timestamp := some ts, modelUsed := modelUsed
                          gatewayLogId := gatewayLogId } }]
  | .toolCall i ts toolName argumentsJson toolCallId =>
    if includeToolCalls then
      [{ role := .assistant
         content := "Tool call: " ++ toolName ++ " with arguments: " ++ argumentsJson
         metadata := some { eventId := some i, timestamp := some ts
                            toolCallId := some toolCallId, toolName := some toolName } }]
    else []
  | .toolResult i ts toolCallId toolName result isSuccess =>
    if includeToolCalls then
      [{ role := .tool
         content := match result with | .strVal s => s | .objVal j => j
         name := some toolName
         tool_call_id := some toolCallId
         metadata := some { eventId := some i, timestamp := some ts
                            isSuccess := some isSuccess } }]
    else []
  | .compaction i ts summary compactedEventIds _strategy =>
    [{ role := .system
       content := "[Conversation Summary]: " ++ summary
       metadata := some { eventId := some i, timestamp := some ts
                          compactedEventIds := some compactedEventIds } }]
  | _ => []

/-- Model of `contentsRequestProcessor`: select the event window, drop filtered
actions, append one content per handled event, record the realized content
count in `metadata.windowSize`. -/
def contentsRequestProcessor (session : Session) (context : WorkingContext)
    (config : Option ContentsProcessorConfig) : WorkingContext :=
  let windowSize := config.bind (·.windowSize)
  let includeToolCalls := (config.bind (·.includeToolCalls)).getD true
  let filterActions := (config.bind (·.filterActions)).getD []
  let eventsToProcess := session.events
  let eventsToProcess :=
    match windowSize with
    | some w => if 0 < w then jsSlice eventsToProcess (-(w : Int)) else eventsToProcess
    | none => eventsToProcess
  let eventsToProcess :=
    if 0 < filterActions.length then
      eventsToProcess.filter (fun e => decide (e.action ∉ filterActions))
    else eventsToProcess
  let context :=
    { context with
        contents := context.contents ++ eventsToProcess.flatMap (eventToContents includeToolCalls) }
  { context with metadata := { context.metadata with windowSize := context.contents.length } }

/-- Model of `CompactionFilterProcessorConfig` of `processors.ts`. -/
structure CompactionFilterProcessorConfig where
  keepCompactionSummaries : Option Bool := none
deriving DecidableEq, Repr

/-- The event ids referenced by the `compactedEventIds` of any compaction event
(the source collects them into a `Set`; the set is modelled by the gathered
list, with membership and distinct-count taken on it). -/
def Session.compactedEventIdSet (session : Session) : List String :=
  ((session.events.filter (fun e => decide (e.action = EventAction.compaction))).map
    Event.compactedIdsOf).flatten

/-- Model of `compactionFilterRequestProcessor`: drop every event whose id was
compacted away unless it is itself a compaction event and summaries are
kept, record the number of distinct compacted ids, and re-run the contents
projection over the filtered view. -/
def compactionFilterRequestProcessor (session : Session) (context : WorkingContext)
    (config : Option CompactionFilterProcessorConfig) : WorkingContext :=
  let keepSummaries := (config.bind (·.keepCompactionSummaries)).getD true
  let compactedEventIds := session.compactedEventIdSet
  let filteredEvents := session.events.filter fun e =>
    decide (e.id ∉ compactedEventIds)
      || (keepSummaries && decide (e.action = EventAction.compaction))
  let tempSession := { session with events := filteredEvents }
  let context :=
    { context with
        metadata := { context.metadata with
                        compactedEvents := compactedEventIds.dedup.length } }
  contentsRequestProcessor tempSession context none

/-- The optional `metadata.responseTimeMs` carried by a model response (the
only part of the opaque response object read by
`statisticsResponseProcessor`). -/
structure ModelResponseMetadata where
  responseTimeMs : Option ℚ := none
deriving DecidableEq, Repr

/-- The opaque model response, restricted to the fields the response
processors read. -/
structure ModelResponse where
  metadata : Option ModelResponseMetadata := none
deriving DecidableEq, Repr

/-- Model of `statisticsResponseProcessor`: fold a truthy (present and nonzero)
`responseTimeMs` sample into the running average; otherwise leave the
session untouched. -/
def statisticsResponseProcessor (session : Session) (response : ModelResponse) : Session :=
  match response.metadata with
  | none => session
  | some m =>
    match m.responseTimeMs with
    | none => session
    | some sample =>
      if sample ≠ 0 then
        let currentAvg := session.statistics.averageResponseTimeMs
        let totalResponses := session.statistics.totalAgentMessages
        let newAvg := (currentAvg * totalResponses + sample) / ((totalResponses : ℚ) + 1)
        { session with
            statistics := { session.statistics with averageResponseTimeMs := newAvg } }
      else session

/-- The `tokensUsed` contribution of one event to the claimed token sum
(the value of the field on an agent message that carries it, `0` otherwise). -/
def eventTokenContribution (e : Event) : Int :=
  (e.tokensUsedOpt).getD 0

/-- The number of appended events of a given action type. -/
def countAction (a : EventAction) (l : List (Event × Int)) : Nat :=
  l.countP (fun p => decide (p.1.action = a))

theorem updateStatistics_spec (st : SessionStatistics) (e : Event) :
    (updateStatistics st e).totalEvents = st.totalEvents + 1
    ∧ (updateStatistics st e).totalUserMessages
        = st.totalUserMessages + (if e.action = EventAction.userMessage then 1 else 0)
    ∧ (updateStatistics st e).totalAgentMessages
        = st.totalAgentMessages + (if e.action = EventAction.agentMessage then 1 else 0)
    ∧ (updateStatistics st e).totalToolCalls
        = st.totalToolCalls + (if e.action = EventAction.toolCall then 1 else 0)
    ∧ (updateStatistics st e).totalErrors
        = st.totalErrors + (if e.action = EventAction.error then 1 else 0)
    ∧ (updateStatistics st e).totalCompactions
        = st.totalCompactions + (if e.action = EventAction.compaction then 1 else 0)
    ∧ (updateStatistics st e).totalTokensUsed = st.totalTokensUsed + eventTokenContribution e
    ∧ (updateStatistics st e).averageResponseTimeMs = st.averageResponseTimeMs := by
  cases e <;>
    simp only [updateStatistics, Event.action, Event.tokensUsedOpt, eventTokenContribution,
      Option.getD] <;>
    simp_all
  case agentMessage mu tu gl =>
    cases tu with
    | none => simp
    | some t =>
      by_cases ht : t = 0 <;> simp [ht]

theorem appendEvents_stats (l : List (Event × Int)) : ∀ s : Session,
    (s.appendEvents l).statistics.totalEvents = s.statistics.totalEvents + l.length
    ∧ (s.appendEvents l).statistics.totalUserMessages
        = s.statistics.totalUserMessages + countAction EventAction.userMessage l
    ∧ (s.appendEvents l).statistics.totalAgentMessages
        = s.statistics.totalAgentMessages + countAction EventAction.agentMessage l
    ∧ (s.appendEvents l).statistics.totalToolCalls
        = s.statistics.totalToolCalls + countAction EventAction.toolCall l
    ∧ (s.appendEvents l).statistics.totalErrors
        = s.statistics.totalErrors + countAction EventAction.error l
    ∧ (s.appendEvents l).statistics.totalCompactions
        = s.statistics.totalCompactions + countAction EventAction.compaction l
    ∧ (s.appendEvents l).statistics.totalTokensUsed
        = s.statistics.totalTokensUsed + (l.map (fun p => eventTokenContribution p.1)).sum
    ∧ (s.appendEvents l).statistics.averageResponseTimeMs
        = s.statistics.averageResponseTimeMs := by
  induction l with
  | nil => intro s; simp [Session.appendEvents, countAction]
  | cons p rest ih =>
    intro s
    have hstep := updateStatistics_spec s.statistics p.1
    have hrec := ih (s.addEvent p.1 p.2)
    have haddstats : (s.addEvent p.1 p.2).statistics = updateStatistics s.statistics p.1 := rfl
    have hfold : s.appendEvents (p :: rest) = (s.addEvent p.1 p.2).appendEvents rest := by
      simp [Session.appendEvents]
    rw [hfold]
    refine ⟨?_, ?_, ?_, ?_, ?_, ?_, ?_, ?_⟩ <;>
      simp only [hrec.1, hrec.2.1, hrec.2.2.1, hrec.2.2.2.1, hrec.2.2.2.2.1,
        hrec.2.2.2.2.2.1, hrec.2.2.2.2.2.2.1, hrec.2.2.2.2.2.2.2,
        haddstats, hstep.1, hstep.2.1, hstep.2.2.1, hstep.2.2.2.1, hstep.2.2.2.2.1,
        hstep.2.2.2.2.2.1, hstep.2.2.2.2.2.2.1, hstep.2.2.2.2.2.2.2,
        countAction, List.countP_cons, List.map_cons, List.sum_cons] <;>
      (try simp only [List.length_cons, decide_eq_true_eq]) <;>
      omega

/-- C1: starting from a freshly constructed session, any sequence of
`addEvent` calls leaves `totalEvents` equal to the number of calls, each
per-type counter equal to the number of appended events of that action
type, and `totalTokensUsed` equal to the sum of the `tokensUsed` fields of
the appended agent-message events that carry one. -/
theorem C1_addEvent_statistics (agentId sessionId : String) (t0 : Int)
    (l : List (Event × Int)) :
    ((Session.create agentId sessionId t0).appendEvents l).statistics.totalEvents = l.length
    ∧ ((Session.create agentId sessionId t0).appendEvents l).statistics.totalUserMessages
        = countAction EventAction.userMessage l
    ∧ ((Session.create agentId sessionId t0).appendEvents l).statistics.totalAgentMessages
        = countAction EventAction.agentMessage l
    ∧ ((Session.create agentId sessionId t0).appendEvents l).statistics.totalToolCalls
        = countAction EventAction.toolCall l
    ∧ ((Session.create agentId sessionId t0).appendEvents l).statistics.totalErrors
        = countAction EventAction.error l
    ∧ ((Session.create agentId sessionId t0).appendEvents l).statistics.totalCompactions
        = countAction EventAction.compaction l
    ∧ ((Session.create agentId sessionId t0).appendEvents l).statistics.totalTokensUsed
        = (l.map (fun p => eventTokenContribution p.1)).sum := by
  have h := appendEvents_stats l (Session.create agentId sessionId t0)
  exact ⟨by simpa [Session.create] using h.1, by simpa [Session.create] using h.2.1,
    by simpa [Session.create] using h.2.2.1, by simpa [Session.create] using h.2.2.2.1,
    by simpa [Session.create] using h.2.2.2.2.1, by simpa [Session.create] using h.2.2.2.2.2.1,
    by simpa [Session.create] using h.2.2.2.2.2.2.1⟩

/-- C2: deserializing a serialized session reproduces the metadata, the
event list (same order, hence same ids), the statistics and the compaction
configuration of the original session, whatever fresh clock and generated
id the deserializing constructor used. -/
theorem C2_serialize_roundtrip (s : Session) (freshSessionId : String) (now : Int) :
    (Session.deserialize s.serialize freshSessionId now).metadata = s.metadata
    ∧ (Session.deserialize s.serialize freshSessionId now).events = s.events
    ∧ (Session.deserialize s.serialize freshSessionId now).statistics = s.statistics
    ∧ (Session.deserialize s.serialize freshSessionId now).compactionConfig
        = s.compactionConfig := by
  simp [Session.deserialize, Session.serialize, Session.create]

theorem needsCompaction_eq (s : Session) :
    s.needsCompaction
      = (s.compactionConfig.enabled
          && decide (s.compactionConfig.triggerThreshold ≤
              (s.events.filter (fun e => decide (e.action ≠ EventAction.compaction))).length)) := by
  cases h : s.compactionConfig.enabled <;> simp [Session.needsCompaction, h, ge_iff_le]

/-- C3: `needsCompaction` is false whenever compaction is disabled;
otherwise it is true exactly when the number of non-compaction events
reaches `triggerThreshold` (which a fresh session sets to 50); and it
depends only on the non-compaction events and the configuration, so the
number of compaction events in the log cannot change the answer. -/
theorem C3_needsCompaction (s t : Session) :
    (s.compactionConfig.enabled = false → s.needsCompaction = false)
    ∧ (s.compactionConfig.enabled = true →
        (s.needsCompaction = true ↔
          s.compactionConfig.triggerThreshold ≤
            (s.events.filter (fun e => decide (e.action ≠ EventAction.compaction))).length))
    ∧ (∀ agentId sessionId now,
        (Session.create agentId sessionId now).compactionConfig.triggerThreshold = 50)
    ∧ (s.compactionConfig = t.compactionConfig →
        s.events.filter (fun e => decide (e.action ≠ EventAction.compaction))
          = t.events.filter (fun e => decide (e.action ≠ EventAction.compaction)) →
        s.needsCompaction = t.needsCompaction) := by
  refine ⟨fun h => ?_, fun h => ?_, fun _ _ _ => rfl, fun hcfg hev => ?_⟩
  · simp [needsCompaction_eq, h]
  · simp [needsCompaction_eq, h]
  · rw [needsCompaction_eq, needsCompaction_eq, hcfg, hev]

/-- C9: `getLastNEvents 0` returns the whole event log, because
`slice(-0)` is `slice(0)`; for positive `n` it returns the suffix of the
log of length `min n totalEvents`, in order. -/
theorem C9_getLastNEvents (s : Session) (n : Nat) :
    s.getLastNEvents 0 = s.events
    ∧ (0 < n →
        s.getLastNEvents n = s.events.drop (s.events.length - n)
          ∧ (s.getLastNEvents n).length = min n s.events.length
          ∧ s.getLastNEvents n <:+ s.events) := by
  constructor
  · simp [Session.getLastNEvents, jsSlice]
  · intro hn
    have hlt : (-(n : Int)) < 0 := by omega
    have hk : (max ((s.events.length : Int) + -(n : Int)) 0).toNat
        = s.events.length - n := by omega
    have hdrop : s.getLastNEvents n = s.events.drop (s.events.length - n) := by
      simp only [Session.getLastNEvents, jsSlice, if_pos hlt, hk]
    refine ⟨hdrop, ?_, ?_⟩
    · rw [hdrop, List.length_drop]
      omega
    · rw [hdrop]
      exact List.drop_suffix _ _

/-- The `responseTimeMs` sample read off a response
(`resp.metadata?.responseTimeMs`). -/
def ModelResponse.responseTimeSample (r : ModelResponse) : Option ℚ :=
  r.metadata.bind (fun m => m.responseTimeMs)

/-- C10: `statisticsResponseProcessor` leaves the session entirely
unchanged when `responseTimeMs` is absent or zero (a zero sample is falsy
and is treated like a missing one); a nonzero sample changes only
`averageResponseTimeMs`, to
`(oldAvg * totalAgentMessages + sample) / (totalAgentMessages + 1)`. -/
theorem C10_statisticsResponseProcessor (s : Session) (resp : ModelResponse) :
    ((resp.responseTimeSample = none ∨ resp.responseTimeSample = some 0) →
        statisticsResponseProcessor s resp = s)
    ∧ (∀ sample : ℚ, resp.responseTimeSample = some sample → sample ≠ 0 →
        statisticsResponseProcessor s resp
          = { s with statistics :=
                { s.statistics with averageResponseTimeMs :=
                    (s.statistics.averageResponseTimeMs * s.statistics.totalAgentMessages
                        + sample)
                      / ((s.statistics.totalAgentMessages : ℚ) + 1) } }) := by
  constructor
  · intro h
    cases hm : resp.metadata with
    | none => simp [statisticsResponseProcessor, hm]
    | some m =>
      cases ht : m.responseTimeMs with
      | none => simp [statisticsResponseProcessor, hm, ht]
      | some t =>
        have : t = 0 := by
          rcases h with h | h <;>
            simp [ModelResponse.responseTimeSample, hm, ht] at h
          exact h
        simp [statisticsResponseProcessor, hm, ht, this]
  · intro sample hs hnz
    cases hm : resp.metadata with
    | none => simp [ModelResponse.responseTimeSample, hm] at hs
    | some m =>
      cases ht : m.responseTimeMs with
      | none => simp [ModelResponse.responseTimeSample, hm, ht] at hs
      | some t =>
        have htsample : t = sample := by
          simpa [ModelResponse.responseTimeSample, hm, ht] using hs
        subst htsample
        simp [statisticsResponseProcessor, hm, ht, hnz]

/-- C8: requesting any `modelType` other than `"workers-ai"` from
`toModelFormat` is an error (no partial result is produced), and any
`format` option other than `"responses"` — including `"native"`,
`"chat_completions"` and an absent format — yields the chat-style
`messages` shape. -/
theorem C8_toModelFormat (c : WorkingContext) (modelType : String)
    (format model : Option String) :
    (modelType ≠ "workers-ai" →
        c.toModelFormat modelType format model
          = Except.error ("Unsupported model type: " ++ modelType))
    ∧ (format ≠ some "responses" →
        ∃ msgs, c.toModelFormat "workers-ai" format model
          = Except.ok (WorkersAIFormat.messagesFormat msgs)) := by
  constructor
  · intro h
    simp [WorkingContext.toModelFormat, h]
  · intro h
    have key : ∀ f : String, f ≠ "responses" →
        ∃ msgs, c.toWorkersAIFormat f model = WorkersAIFormat.messagesFormat msgs := by
      intro f hf
      unfold WorkingContext.toWorkersAIFormat
      rw [if_neg hf]
      exact ⟨_, rfl⟩
    cases format with
    | none =>
      obtain ⟨msgs, hmsgs⟩ := key "chat_completions" (by decide)
      exact ⟨msgs, by simp [WorkingContext.toModelFormat, hmsgs]⟩
    | some f =>
      by_cases hf : f = ""
      · obtain ⟨msgs, hmsgs⟩ := key "chat_completions" (by decide)
        exact ⟨msgs, by simp [WorkingContext.toModelFormat, hf, hmsgs]⟩
      · have hfr : f ≠ "responses" := fun hc => h (by rw [hc])
        obtain ⟨msgs, hmsgs⟩ := key f hfr
        exact ⟨msgs, by simp [WorkingContext.toModelFormat, hf, hmsgs]⟩

theorem turnsAux_length (l : List Event) : ∀ cur : Option ConversationTurn,
    (turnsAux l cur).length
      = l.countP (fun e => decide (e.action = EventAction.userMessage))
        + (match cur with | some _ => 1 | none => 0) := by
  induction l with
  | nil => intro cur; cases cur <;> simp [turnsAux]
  | cons e rest ih =>
    intro cur
    by_cases hu : e.action = EventAction.userMessage
    · cases cur with
      | some t => simp [turnsAux, hu, ih, List.countP_cons]
      | none => simp [turnsAux, hu, ih, List.countP_cons]
    · cases cur with
      | none => simp [turnsAux, hu, ih, List.countP_cons]
      | some t =>
        by_cases ha : e.action = EventAction.agentMessage
        · simp [turnsAux, hu, ha, ih, List.countP_cons]
        · by_cases htool : e.action = EventAction.toolCall ∨ e.action = EventAction.toolResult
          · simp [turnsAux, hu, ha, htool, ih, List.countP_cons]
          · simp [turnsAux, hu, ha, htool, ih, List.countP_cons]

theorem turnsAux_drop_nonuser (pre : List Event)
    (h : ∀ e ∈ pre, e.action ≠ EventAction.userMessage) (rest : List Event) :
    turnsAux (pre ++ rest) none = turnsAux rest none := by
  induction pre with
  | nil => simp
  | cons e p ih =>
    have he : e.action ≠ EventAction.userMessage := h e (by simp)
    have hp : ∀ x ∈ p, x.action ≠ EventAction.userMessage := fun x hx => h x (by simp [hx])
    simp [turnsAux, he, ih hp]

/-- C7: on [user u1, agent a1, toolCall t1, toolResult r1, user u2] the
scan yields exactly the two claimed turns (a1 in the agent slot, [t1, r1]
in encounter order, and a second turn with only u2); in general a prefix of
non-user events contributes nothing to the grouping, and every user message
yields a turn — so the turn in progress at the end of the scan is
flushed. -/
theorem C7_getConversationTurns (s s1 s2 : Session) (pre : List Event) :
    (∀ e1 e2 e3 e4 e5 : Event,
        e1.action = EventAction.userMessage → e2.action = EventAction.agentMessage →
        e3.action = EventAction.toolCall → e4.action = EventAction.toolResult →
        e5.action = EventAction.userMessage →
        s.events = [e1, e2, e3, e4, e5] →
        s.getConversationTurns
          = [{ user := e1, agent := some e2, tools := [e3, e4] },
             { user := e5, agent := none, tools := [] }])
    ∧ (s1.events = pre ++ s2.events →
        (∀ e ∈ pre, e.action ≠ EventAction.userMessage) →
        s1.getConversationTurns = s2.getConversationTurns)
    ∧ s.getConversationTurns.length
        = (s.events.filter (fun e => decide (e.action = EventAction.userMessage))).length := by
  refine ⟨?_, ?_, ?_⟩
  · intro e1 e2 e3 e4 e5 h1 h2 h3 h4 h5 hev
    have h2u : e2.action ≠ EventAction.userMessage := by rw [h2]; intro hc; cases hc
    have h3u : e3.action ≠ EventAction.userMessage := by rw [h3]; intro hc; cases hc
    have h4u : e4.action ≠ EventAction.userMessage := by rw [h4]; intro hc; cases hc
    have h3a : e3.action ≠ EventAction.agentMessage := by rw [h3]; intro hc; cases hc
    have h4a : e4.action ≠ EventAction.agentMessage := by rw [h4]; intro hc; cases hc
    simp [Session.getConversationTurns, hev, turnsAux, h1, h2, h3, h4, h5, h2u, h3u, h4u,
      h3a, h4a]
  · intro hev hpre
    simp [Session.getConversationTurns, hev, turnsAux_drop_nonuser pre hpre]
  · rw [Session.getConversationTurns, turnsAux_length]
    simp [List.countP_eq_length_filter]

/-- The total per-content token cost of a contents list (the quantity the
truncation walk accumulates). -/
def contentsCost (l : List Content) : Nat :=
  (l.map contentTokenCost).sum

theorem contentsCost_cons (x : Content) (l : List Content) :
    contentsCost (x :: l) = contentTokenCost x + contentsCost l := by
  simp [contentsCost]

theorem contentsCost_append (a b : List Content) :
    contentsCost (a ++ b) = contentsCost a + contentsCost b := by
  simp [contentsCost]

theorem contentsCost_reverse (l : List Content) :
    contentsCost l.reverse = contentsCost l := by
  simp [contentsCost, List.map_reverse, List.sum_reverse]

theorem takeWhileBudget_prefix (budget : ℚ) :
    ∀ (l : List Content) (acc : ℚ), takeWhileBudget budget l acc <+: l := by
  intro l
  induction l with
  | nil => intro acc; simp [takeWhileBudget]
  | cons x xs ih =>
    intro acc
    rw [takeWhileBudget]
    split
    · exact List.cons_prefix_cons.mpr ⟨rfl, ih _⟩
    · exact List.nil_prefix

theorem takeWhileBudget_le_or_nil (budget : ℚ) :
    ∀ (l : List Content) (acc : ℚ),
      acc + (contentsCost (takeWhileBudget budget l acc) : ℚ) ≤ budget
        ∨ takeWhileBudget budget l acc = [] := by
  intro l
  induction l with
  | nil => intro acc; right; rfl
  | cons x xs ih =>
    intro acc
    rw [takeWhileBudget]
    split
    · rename_i h
      left
      rcases ih (acc + (contentTokenCost x : ℚ)) with h2 | h2
      · rw [contentsCost_cons]
        push_cast at h2 ⊢
        linarith
      · rw [h2, contentsCost_cons]
        simpa [contentsCost] using h
    · right; rfl

theorem takeWhileBudget_all (budget : ℚ) :
    ∀ (l : List Content) (acc : ℚ),
      acc + (contentsCost l : ℚ) ≤ budget → takeWhileBudget budget l acc = l := by
  intro l
  induction l with
  | nil => intro acc _; rfl
  | cons x xs ih =>
    intro acc h
    rw [contentsCost_cons] at h
    push_cast at h
    have hnonneg : (0 : ℚ) ≤ (contentsCost xs : ℚ) := by positivity
    have hx : acc + (contentTokenCost x : ℚ) ≤ budget := by linarith
    rw [takeWhileBudget, if_pos hx, ih (acc + (contentTokenCost x : ℚ)) (by linarith)]

theorem takeWhileBudget_maximal (budget : ℚ) :
    ∀ (l : List Content) (acc : ℚ),
      (takeWhileBudget budget l acc).length < l.length →
      budget < acc + (contentsCost (l.take ((takeWhileBudget budget l acc).length + 1)) : ℚ) := by
  intro l
  induction l with
  | nil => intro acc h; simp [takeWhileBudget] at h
  | cons x xs ih =>
    intro acc h
    by_cases hx : acc + (contentTokenCost x : ℚ) ≤ budget
    · rw [takeWhileBudget, if_pos hx] at h ⊢
      simp only [List.length_cons] at h
      have h' : (takeWhileBudget budget xs (acc + (contentTokenCost x : ℚ))).length
          < xs.length := by omega
      have hrec := ih (acc + (contentTokenCost x : ℚ)) h'
      rw [List.length_cons, List.take_succ_cons, contentsCost_cons]
      push_cast at hrec ⊢
      linarith
    · rw [takeWhileBudget, if_neg hx] at h ⊢
      have : budget < acc + (contentTokenCost x : ℚ) := not_le.mp hx
      simpa [contentsCost_cons, contentsCost] using this

theorem contentsCost_prefix_le (a b : List Content) (h : a <+: b) :
    contentsCost a ≤ contentsCost b := by
  obtain ⟨t, rfl⟩ := h
  rw [contentsCost_append]
  omega

theorem contentsCost_take_mono (l : List Content) (m n : Nat) (h : m ≤ n) :
    contentsCost (l.take m) ≤ contentsCost (l.take n) := by
  apply contentsCost_prefix_le
  have heq : l.take m = (l.take n).take m := by rw [List.take_take, min_eq_left h]
  rw [heq]
  exact List.take_prefix _ _

/-- C4: `truncateToFit` is the identity when the estimate already fits in
`availableForHistory`; otherwise the new contents list is a suffix of the
old one that fits within `availableForHistory` minus the
system-instructions-plus-identity cost (or is empty when even the newest
item exceeds it), every strictly longer suffix exceeds that budget (the
walk stops at the first content that would exceed it, so older items past
that point are dropped even if an individual one would have fit), and the
length of the retained suffix is recorded in `metadata.windowSize`. -/
theorem C4_truncateToFit (c : WorkingContext) (config : ContextWindowConfig) :
    (c.estimateTokenCount ≤ config.availableForHistory → c.truncateToFit config = c)
    ∧ (config.availableForHistory < c.estimateTokenCount →
        (c.truncateToFit config).contents <:+ c.contents
        ∧ ((contentsCost (c.truncateToFit config).contents : ℚ)
              ≤ c.availableForContentsQ config
            ∨ (c.truncateToFit config).contents = [])
        ∧ (∀ suf : List Content, suf <:+ c.contents →
            ((c.truncateToFit config).contents).length < suf.length →
            c.availableForContentsQ config < (contentsCost suf : ℚ))
        ∧ (c.truncateToFit config).metadata.windowSize
            = ((c.truncateToFit config).contents).length) := by
  constructor
  · intro h
    rw [WorkingContext.truncateToFit, if_pos h]
  · intro h
    have hnot : ¬ c.estimateTokenCount ≤ config.availableForHistory := by omega
    have hres : (c.truncateToFit config).contents
        = (takeWhileBudget (c.availableForContentsQ config) c.contents.reverse 0).reverse := by
      rw [WorkingContext.truncateToFit, if_neg hnot]
    have hmeta : (c.truncateToFit config).metadata.windowSize
        = ((c.truncateToFit config).contents).length := by
      rw [WorkingContext.truncateToFit, if_neg hnot]
    refine ⟨?_, ?_, ?_, hmeta⟩
    · rw [hres]
      have hpre := takeWhileBudget_prefix (c.availableForContentsQ config) c.contents.reverse 0
      have := List.reverse_suffix.mpr hpre
      simpa using this
    · rcases takeWhileBudget_le_or_nil (c.availableForContentsQ config)
        c.contents.reverse 0 with h2 | h2
      · left
        rw [hres, contentsCost_reverse]
        simpa using h2
      · right
        rw [hres, h2]
        rfl
    · intro suf hsuf hlen
      rw [hres, List.length_reverse] at hlen
      have hsuflen : suf.length ≤ c.contents.length := hsuf.length_le
      have hrevpre : suf.reverse <+: c.contents.reverse := List.reverse_prefix.mpr hsuf
      have htake : suf.reverse = c.contents.reverse.take suf.length := by
        have := List.prefix_iff_eq_take.mp hrevpre
        simpa using this
      have hklt : (takeWhileBudget (c.availableForContentsQ config)
          c.contents.reverse 0).length < c.contents.reverse.length := by
        rw [List.length_reverse]
        omega
      have hstep := takeWhileBudget_maximal (c.availableForContentsQ config)
        c.contents.reverse 0 hklt
      have hmono : contentsCost (c.contents.reverse.take
            ((takeWhileBudget (c.availableForContentsQ config) c.contents.reverse 0).length + 1))
          ≤ contentsCost (c.contents.reverse.take suf.length) :=
        contentsCost_take_mono _ _ _ (by omega)
      have hcost : contentsCost (c.contents.reverse.take suf.length) = contentsCost suf := by
        rw [← htake, contentsCost_reverse]
      have : (contentsCost (c.contents.reverse.take suf.length) : ℚ)
          ≥ (contentsCost (c.contents.reverse.take
              ((takeWhileBudget (c.availableForContentsQ config)
                c.contents.reverse 0).length + 1)) : ℚ) := by
        exact_mod_cast hmono
      rw [hcost] at this
      linarith [hstep]

/-- C5: applying `truncateToFit` twice with the same window configuration
yields the same contents list as applying it once. -/
theorem C5_truncateToFit_idem (c : WorkingContext) (config : ContextWindowConfig) :
    ((c.truncateToFit config).truncateToFit config).contents
      = (c.truncateToFit config).contents := by
  by_cases h : c.estimateTokenCount ≤ config.availableForHistory
  · have h1 : c.truncateToFit config = c := by rw [WorkingContext.truncateToFit, if_pos h]
    rw [h1, h1]
  · have hres : (c.truncateToFit config).contents
        = (takeWhileBudget (c.availableForContentsQ config) c.contents.reverse 0).reverse := by
      rw [WorkingContext.truncateToFit, if_neg h]
    have hsys : (c.truncateToFit config).availableForContentsQ config
        = c.availableForContentsQ config := by
      rw [WorkingContext.truncateToFit, if_neg h]
      simp [WorkingContext.availableForContentsQ, WorkingContext.systemTokensQ]
    by_cases h2 : (c.truncateToFit config).estimateTokenCount ≤ config.availableForHistory
    · rw [WorkingContext.truncateToFit, if_pos h2]
    · rw [WorkingContext.truncateToFit, if_neg h2]
      rw [hsys, hres, List.reverse_reverse]
      rcases takeWhileBudget_le_or_nil (c.availableForContentsQ config)
        c.contents.reverse 0 with h3 | h3
      · rw [takeWhileBudget_all _ _ _ (by simpa using h3)]
      · rw [h3]
        rfl

/-- The `eventId` recorded in the metadata of a content (the provenance link
from a projected content back to its source event). -/
def contentEventId (c : Content) : Option String :=
  c.metadata.bind (fun m => m.eventId)

/-- The event view the compaction filter projects: every event whose id was
compacted away is dropped unless it is itself a compaction event and
summaries are kept. -/
def compactionFilteredEvents (s : Session) (keepSummaries : Bool) : List Event :=
  s.events.filter fun e =>
    decide (e.id ∉ s.compactedEventIdSet)
      || (keepSummaries && decide (e.action = EventAction.compaction))

/-- Running the compaction filter on the fresh per-invocation context, with
`keepCompactionSummaries := true` (the default-pipeline configuration). -/
def compactionFilterRun (s : Session) (now : Int) : WorkingContext :=
  compactionFilterRequestProcessor s (WorkingContext.mk0 s.metadata.sessionId now)
    (some { keepCompactionSummaries := some true })

theorem compactionFilterRun_spec (s : Session) (now : Int) :
    (compactionFilterRun s now).contents
      = (compactionFilteredEvents s true).flatMap (eventToContents true)
    ∧ (compactionFilterRun s now).metadata.compactedEvents
      = s.compactedEventIdSet.dedup.length := by
  constructor <;>
    simp [compactionFilterRun, compactionFilterRequestProcessor, contentsRequestProcessor,
      compactionFilteredEvents, WorkingContext.mk0]

theorem eventToContents_eventId (inc : Bool) (e : Event) :
    ∀ c ∈ eventToContents inc e, contentEventId c = some e.id := by
  intro c hc
  cases e <;>
    (try cases inc) <;>
    simp [eventToContents, contentEventId, Event.id] at hc <;>
    simp [hc, contentEventId, Event.id]

theorem action_compaction_inv (e : Event) (h : e.action = EventAction.compaction) :
    ∃ i ts su ids strat, e = Event.compaction i ts su ids strat := by
  cases e <;> first
    | exact ⟨_, _, _, _, _, rfl⟩
    | simp [Event.action] at h

/-- C6: with unique event ids, for any session holding compaction events,
`compactionFilterRequestProcessor` with `keepCompactionSummaries = true`
produces a context containing no content derived from a compacted
non-compaction event (such as the referenced e1 and e3), containing for
every compaction event a system-role content whose text contains the
summary, and recording the number of distinct compacted ids in
`metadata.compactedEvents`. -/
theorem C6_compactionFilter (s : Session) (now : Int)
    (hnodup : (s.events.map Event.id).Nodup) :
    (∀ e ∈ s.events, e.id ∈ s.compactedEventIdSet → e.action ≠ EventAction.compaction →
        ∀ c ∈ (compactionFilterRun s now).contents, contentEventId c ≠ some e.id)
    ∧ (∀ ev ∈ s.events, ev.action = EventAction.compaction →
        ∃ c ∈ (compactionFilterRun s now).contents,
          c.role = ContentRole.system
            ∧ ∃ lead : String, c.content = lead ++ ev.summaryStr)
    ∧ (compactionFilterRun s now).metadata.compactedEvents
        = s.compactedEventIdSet.dedup.length := by
  obtain ⟨hcont, hmeta⟩ := compactionFilterRun_spec s now
  refine ⟨?_, ?_, hmeta⟩
  · intro e he hid hact c hc heq
    rw [hcont] at hc
    obtain ⟨e', he', hce'⟩ := List.mem_flatMap.mp hc
    have hider : contentEventId c = some e'.id := eventToContents_eventId true e' c hce'
    have hsameid : e'.id = e.id := by
      rw [hider] at heq
      exact Option.some.inj heq
    rw [compactionFilteredEvents, List.mem_filter] at he'
    have heeq : e' = e := List.inj_on_of_nodup_map hnodup he'.1 he hsameid
    have hpred := he'.2
    rw [heeq] at hpred
    simp [hid, hact] at hpred
  · intro ev hev hact
    have hmem : ev ∈ compactionFilteredEvents s true := by
      rw [compactionFilteredEvents, List.mem_filter]
      exact ⟨hev, by simp [hact]⟩
    obtain ⟨i, ts, su, ids, strat, rfl⟩ := action_compaction_inv ev hact
    refine ⟨{ role := .system, content := "[Conversation Summary]: " ++ su
              metadata := some { eventId := some i, timestamp := some ts
                                 compactedEventIds := some ids } },
      ?_, rfl, "[Conversation Summary]: ", rfl⟩
    rw [hcont]
    exact List.mem_flatMap.mpr ⟨_, hmem, by simp [eventToContents]⟩

/-- Concrete user message for witness instances. -/
def demoU1 : Event := .userMessage "u1" 1 "hello"

/-- Concrete agent message for witness instances. -/
def demoA1 : Event := .agentMessage "a1" 2 "hi there" "agent-1" none (some 5) none

/-- Concrete tool call for witness instances. -/
def demoT1 : Event := .toolCall "t1" 3 "search" "\x7b\x7d" "call-1"

/-- Concrete tool result for witness instances. -/
def demoR1 : Event := .toolResult "r1" 4 "call-1" "search" (.strVal "ok") true

/-- Concrete second user message for witness instances. -/
def demoU2 : Event := .userMessage "u2" 5 "bye"

/-- Concrete session: a fresh session with the five demo events. -/
def demoSession : Session :=
  (Session.create "agent-1" "sid-1" 0).appendEvents
    [(demoU1, 1), (demoA1, 2), (demoT1, 3), (demoR1, 4), (demoU2, 5)]

/-- Concrete session with one extra compaction event appended. -/
def demoSessionB : Session :=
  demoSession.appendEvents
    [(.compaction "e9" 6 "sum" ["u1", "a1"] "sliding_window", 6)]

theorem C3_needsCompaction_witness :
    demoSession.compactionConfig = demoSessionB.compactionConfig
    ∧ demoSession.events.filter (fun e => decide (e.action ≠ EventAction.compaction))
        = demoSessionB.events.filter (fun e => decide (e.action ≠ EventAction.compaction))
    ∧ demoSession.needsCompaction = demoSessionB.needsCompaction :=
  ⟨by decide, by decide,
    (C3_needsCompaction demoSession demoSessionB).2.2.2 (by decide) (by decide)⟩

/-- Concrete over-budget working context for witness instances. -/
def demoCtx : WorkingContext :=
  { WorkingContext.mk0 "sid-1" 0 with
      contents := [{ role := .user, content := "12345678" }, { role := .user, content := "1234" }] }

/-- Concrete window configuration whose history budget the demo context
exceeds. -/
def demoCfg : ContextWindowConfig :=
  { maxTokens := 8, reservedForResponse := 4, reservedForTools := 2, availableForHistory := 1 }

theorem C4_truncateToFit_witness :
    demoCfg.availableForHistory < demoCtx.estimateTokenCount
    ∧ (demoCtx.truncateToFit demoCfg).metadata.windowSize
        = ((demoCtx.truncateToFit demoCfg).contents).length :=
  ⟨by decide, ((C4_truncateToFit demoCtx demoCfg).2 (by decide)).2.2.2⟩

/-- Concrete session holding a compaction event that references two earlier
events. -/
def demoCompSession : Session :=
  (Session.create "agent-1" "sid-1" 0).appendEvents
    [(demoU1, 1), (demoA1, 2), (demoU2, 5),
     (.compaction "e9" 6 "the summary" ["u1", "a1"] "sliding_window", 6)]

theorem C6_compactionFilter_witness :
    (demoCompSession.events.map Event.id).Nodup
    ∧ (compactionFilterRun demoCompSession 7).metadata.compactedEvents
        = demoCompSession.compactedEventIdSet.dedup.length :=
  ⟨by decide, (C6_compactionFilter demoCompSession 7 (by decide)).2.2⟩

theorem C7_getConversationTurns_witness :
    demoSession.events = [demoU1, demoA1, demoT1, demoR1, demoU2]
    ∧ demoSession.getConversationTurns
        = [{ user := demoU1, agent := some demoA1, tools := [demoT1, demoR1] },
           { user := demoU2, agent := none, tools := [] }] :=
  ⟨by decide,
    (C7_getConversationTurns demoSession demoSession demoSession []).1
      demoU1 demoA1 demoT1 demoR1 demoU2 rfl rfl rfl rfl rfl (by decide)⟩

theorem C8_toModelFormat_witness :
    ("other" ≠ "workers-ai"
      ∧ demoCtx.toModelFormat "other" (some "native") none
          = Except.error ("Unsupported model type: " ++ "other"))
    ∧ ((some "native" : Option String) ≠ some "responses"
      ∧ ∃ msgs, demoCtx.toModelFormat "workers-ai" (some "native") none
          = Except.ok (WorkersAIFormat.messagesFormat msgs)) :=
  ⟨⟨by decide, (C8_toModelFormat demoCtx "other" (some "native") none).1 (by decide)⟩,
   ⟨by decide, (C8_toModelFormat demoCtx "workers-ai" (some "native") none).2 (by decide)⟩⟩

theorem C9_getLastNEvents_witness :
    0 < 2
    ∧ (demoSession.getLastNEvents 2 = demoSession.events.drop (demoSession.events.length - 2)
        ∧ (demoSession.getLastNEvents 2).length = min 2 demoSession.events.length
        ∧ demoSession.getLastNEvents 2 <:+ demoSession.events) :=
  ⟨by decide, (C9_getLastNEvents demoSession 2).2 (by decide)⟩

/-- Concrete model response carrying a nonzero `responseTimeMs`. -/
def demoResp : ModelResponse := { metadata := some { responseTimeMs := some 100 } }

theorem C10_statisticsResponseProcessor_witness :
    demoResp.responseTimeSample = some 100
    ∧ (100 : ℚ) ≠ 0
    ∧ statisticsResponseProcessor demoSession demoResp
        = { demoSession with
              statistics := { demoSession.statistics with averageResponseTimeMs :=
                (demoSession.statistics.averageResponseTimeMs
                    * demoSession.statistics.totalAgentMessages + 100)
                  / ((demoSession.statistics.totalAgentMessages : ℚ) + 1) } } :=
  ⟨rfl, by norm_num,
    (C10_statisticsResponseProcessor demoSession demoResp).2 100 rfl (by norm_num)⟩
